import Mathlib

/-!
Shallow embedding of the repository-synchronization core (zendev/repo.py).

The external world seen by one Repository object is captured in a `Repo`
state record: the active branch (none when HEAD is detached), the head
commit, the tracking relationship, the raw short-status output, the raw
rev-list output, the branch enumerations, and the hosting-API response.
Each operation of the class is translated into a pure function from that
state to a trace of externally visible actions (`Act`) together with an
optional uncaught Python-level error (`PyErr`).
-/

namespace Zendev

/-- Splitting of a character list at every character satisfying `p`,
keeping empty segments: the semantics of Python `str.split(sep)` lifted
to an arbitrary separator predicate. -/
def splitOnPred (p : Char → Bool) : List Char → List (List Char)
  | [] => [[]]
  | c :: cs =>
    if p c then [] :: splitOnPred p cs
    else
      match splitOnPred p cs with
      | [] => [[c]]
      | l :: ls => (c :: l) :: ls

/-- Python `s.split(sep)` for a one-character separator. -/
def splitOnChar (sep : Char) (cs : List Char) : List (List Char) :=
  splitOnPred (fun c => c = sep) cs

/-- Python `s.startswith(p)` for a one-character needle `p`. -/
def headIs : List Char → Char → Bool
  | [], _ => false
  | c :: _, p => c = p

/-- The Python 2 regex class backslash-s: ASCII whitespace. -/
def pySpace (c : Char) : Bool :=
  c = ' ' || c = '\t' || c = '\n' || c = '\r' || c = '\x0b' || c = '\x0c'

/-- The lines of a piece of tool output: the segments obtained by
splitting at every newline character (a string with no trailing newline
made of n lines has n segments). -/
def linesOf (cs : List Char) : List (List Char) :=
  splitOnChar '\n' cs

/-- Externally visible actions performed by the Repository operations:
tool invocations, network calls and console messages, in order. -/
inductive Act where
  | errorMsg (msg : String)
  | infoMsg (msg : String)
  | message (msg : String)
  | stashPush (includeUntracked : Bool)
  | stashApply
  | fetchAll
  | rebase (onto : String)
  | gitPush (remote : String) (branchName : String)
  | startFeatureCmd (featureName : String) (base : Option String)
  | publishFeatureCmd (featureName : String)
  | ensureParentDirs
  | cloneCmd (url : String) (branchArg : Option String) (shallow : Bool)
  | checkoutCmd (ref : String)
  | initGitflow
  | sleep (seconds : Nat)
  | httpPost (endpoint title body head base : String)
  deriving Repr, DecidableEq

/-- Python-level exceptions that can escape or be raised by the code. -/
inductive PyErr where
  | gitCommandError
  | alreadyExists (path : String)
  | keyError (key : String)
  | indexError
  | valueError
  | typeError
  deriving Repr, DecidableEq

/-- A JSON value of the hosting-API response: a string, or an array of
flat string-valued objects (the shape of the documented errors array). -/
inductive JVal where
  | jstr (s : String)
  | jobjs (entries : List (List (String × String)))
  deriving Repr, DecidableEq

/-- Key lookup in a JSON object represented as an association list;
none models a missing key (Python membership test / KeyError source). -/
def jget (o : List (String × JVal)) (k : String) : Option JVal :=
  (o.find? (fun kv => kv.1 == k)).map (fun kv => kv.2)

/-- Rendering of a JSON value by the percent-s format operator. -/
def jfmt : JVal → String
  | JVal.jstr s => s
  | JVal.jobjs _ => "[...]"

/-- Rendering of one flat errors entry, standing in for json.dumps of
the entry (an external library; only its use as a fallback message
matters here). -/
def jdumpEntry (e : List (String × String)) : String :=
  "\x7b" ++ String.intercalate ", "
    (e.map (fun kv => "\"" ++ kv.1 ++ "\": \"" ++ kv.2 ++ "\"")) ++ "\x7d"

/-- The message printed for one entry of the errors array:
e.get of the message key, with the dumped entry as the default. -/
def errEntryMsg (e : List (String × String)) : String :=
  match e.find? (fun kv => kv.1 == "message") with
  | some kv => kv.2
  | none => jdumpEntry e

/-- The module-level regex test is_github, pattern
caret [^/\s@]+ / [^/\s]+ dollar: the core shape is a segment with no
slash, no ASCII whitespace and no at-sign, one slash, and a segment with
no slash and no ASCII whitespace, spanning the whole input. -/
def githubCore (cs : List Char) : Bool :=
  match splitOnChar '/' cs with
  | [a, b] =>
    decide (a ≠ []) && decide (b ≠ []) &&
    a.all (fun c => !pySpace c && c ≠ '@') &&
    b.all (fun c => !pySpace c)
  | _ => false

/-- Python re.match with a dollar anchor also matches just before a
single newline at the end of the input, so is_github accepts the core
shape optionally followed by one trailing newline. -/
def is_github (s : String) : Bool :=
  githubCore s.data ||
  ((s.data.getLast? == some '\n') && githubCore s.data.dropLast)

/-- Repository method _proper_url: rewrite a bare owner/repo shorthand
to an SSH github URL, pass anything else through unchanged. -/
def _proper_url (url : String) : String :=
  if is_github url then "git@github.com:" ++ url else url

/-- One step of the flag accumulation of the changes property: the
entry is cut to its first two characters; a leading question mark marks
an untracked file, a leading blank an unstaged change, any other
non-empty code a staged change. -/
def statusStep (acc : Bool × Bool × Bool) (x : List Char) : Bool × Bool × Bool :=
  let char := x.take 2
  if headIs char '?' then (acc.1, acc.2.1, true)
  else if headIs char ' ' then (acc.1, true, acc.2.2)
  else if char ≠ [] then (true, acc.2.1, acc.2.2)
  else acc

/-- The changes property as a function of the raw short-status output:
split the NUL-separated output into entries and accumulate the triple
(staged, unstaged, untracked) over them. -/
def changes (statusZ : String) : Bool × Bool × Bool :=
  (splitOnChar '\x00' statusZ.data).foldl statusStep (false, false, false)

/-- The state of one Repository object and of the external world it
reads: identity fields from the constructor, the observable git state,
and the outcome switches of the external tool calls. -/
structure Repo where
  name : String
  path : String
  ref : String
  url : String
  remoteUrl : String
  activeBranch : Option String
  headSha : String
  branchTip : String → String
  trackingOf : String → Option String
  isMergedInto : String → String → Bool
  statusZ : String
  revListOut : String
  localBranches : List String
  remoteBranches : List String
  originName : String
  pathExists : Bool
  rebaseOk : Bool
  applyStashOk : Bool
  cloneAtRefOk : Bool
  response : List (String × JVal)

/-- Repository.changes applied to the short-status output of the
working copy. -/
def Repo.changes (s : Repo) : Bool × Bool × Bool :=
  Zendev.changes s.statusZ

/-- Repository.branch: the active branch name, or the resolved head
commit identifier when HEAD is detached (the TypeError path). -/
def Repo.branch (s : Repo) : String :=
  match s.activeBranch with
  | some n => n
  | none => s.headSha

/-- Repository.hash: the commit the head ref points at, or the resolved
head commit identifier when HEAD is detached (the TypeError path). -/
def Repo.hash (s : Repo) : String :=
  match s.activeBranch with
  | some n => s.branchTip n
  | none => s.headSha

/-- Repository.merge_from_remote: return at once when detached; resolve
the effective remote ref as the tracking branch if set, else the local
branch name itself; return when already merged; otherwise announce,
stash including untracked files when any dirty flag is set, rebase, and
reapply the stash, swallowing a GitCommandError of the reapply. -/
def Repo.merge_from_remote (s : Repo) : List Act × Option PyErr :=
  match s.activeBranch with
  | none => ([], none)
  | some local_name =>
    let remote_name := (s.trackingOf local_name).getD local_name
    if s.isMergedInto remote_name local_name then ([], none)
    else
      let announce := Act.message ("Changes found in " ++ s.name ++ ":" ++
        remote_name ++ "! Rebasing " ++ local_name ++ "...")
      let cs := s.changes
      let weStashed := cs.1 || cs.2.1 || cs.2.2
      let stashActs := if weStashed then [Act.stashPush true] else []
      if s.rebaseOk then
        let attempt : List Act × Option PyErr :=
          if weStashed then
            ([Act.stashApply],
             if s.applyStashOk then none else some PyErr.gitCommandError)
          else ([], none)
        ([announce] ++ stashActs ++ [Act.rebase remote_name] ++ attempt.1, none)
      else
        ([announce] ++ stashActs ++ [Act.rebase remote_name],
         some PyErr.gitCommandError)

/-- The commit count reported by Repository.push: the newline count of
the rev-list output plus one. -/
def push_count (s : Repo) : Nat :=
  List.count '\n' s.revListOut.data + 1

/-- Repository.push: return at once when detached; when the rev-list of
commits on the local branch and on no remote-tracking ref is non-empty,
announce the count and push the active branch to the origin remote. -/
def Repo.push (s : Repo) : List Act :=
  match s.activeBranch with
  | none => []
  | some local_name =>
    if s.revListOut ≠ "" then
      [Act.message (toString (push_count s) ++ " local commits in " ++
         s.name ++ ":" ++ local_name ++ " need to be pushed.  Pushing..."),
       Act.gitPush s.originName local_name]
    else []

/-- Repository.create_feature: reconcile the presence of the feature
branch locally and remotely; both present means nothing to do, remote
only means fetch, local only means publish, absent means start with no
explicit base and then publish. -/
def Repo.create_feature (s : Repo) (name : String) : List Act :=
  let fname := "feature/" ++ name
  let ofname := "origin/feature/" ++ name
  let isLocal := s.localBranches.contains fname
  let isRemote := s.remoteBranches.contains ofname
  if isLocal && isRemote then []
  else if !isLocal && isRemote then [Act.fetchAll]
  else if isLocal && !isRemote then [Act.publishFeatureCmd name]
  else [Act.startFeatureCmd name none, Act.publishFeatureCmd name]

/-- Modelled from the spec: the effect of the underlying git and
git-flow tools on feature-branch presence, which is outside the sources
under verification. Fetching creates a local tracking branch for an
existing remote feature branch, starting a feature creates the local
branch, publishing it registers the remote branch. -/
def applyFeatureAct (featureName : String) (s : Repo) (a : Act) : Repo :=
  match a with
  | Act.fetchAll =>
    if s.remoteBranches.contains ("origin/feature/" ++ featureName) then
      { s with localBranches := ("feature/" ++ featureName) :: s.localBranches }
    else s
  | Act.startFeatureCmd n _ =>
    { s with localBranches := ("feature/" ++ n) :: s.localBranches }
  | Act.publishFeatureCmd n =>
    { s with remoteBranches := ("origin/feature/" ++ n) :: s.remoteBranches }
  | _ => s

/-- The owner and repo derivation of Repository.create_pull_request:
the segment after the last colon, its last two slash-separated parts,
the repo part cut at whitespace and stripped of a .git ending; a
missing slash or an empty repo part raises as in Python. -/
def ownerRepo (url : String) : Except PyErr (String × String) :=
  let line := (splitOnChar ':' url.data).getLastD []
  let segs := splitOnChar '/' line
  match segs.reverse with
  | repo0 :: owner :: _ =>
    match (splitOnPred (fun c => c.isWhitespace) repo0).filter
        (fun t => t ≠ []) with
    | [] => Except.error PyErr.indexError
    | rp :: _ =>
      let rp' := if (".git".data).isSuffixOf rp then
        rp.take (rp.length - 4) else rp
      Except.ok (String.mk owner, String.mk rp')
  | _ => Except.error PyErr.valueError

/-- Repository.create_pull_request: abort with an error message when
the working copy has unstaged changes; derive owner and repo from the
remote URL; push, wait, announce, POST the pull request; report the
html_url on success; on a Validation Failed message report every
errors entry; any other response shape falls through or raises a
KeyError as in Python. -/
def Repo.create_pull_request (s : Repo) (feature_name body base : String) :
    List Act × Option PyErr :=
  let c := s.changes
  if c.2.1 then
    ([Act.errorMsg ("uncommited changes in: " ++ s.name)], none)
  else
    let branchName := "feature/" ++ feature_name
    match ownerRepo s.remoteUrl with
    | Except.error e => ([], some e)
    | Except.ok (owner, repo) =>
      let acts := s.push ++
        [Act.sleep 1, Act.message "Posting pull request",
         Act.httpPost ("/repos/" ++ owner ++ "/" ++ repo ++ "/pulls")
           ("Please review branch " ++ branchName) body branchName base]
      match jget s.response "html_url" with
      | some v => (acts ++ [Act.infoMsg ("Pull Request: " ++ jfmt v)], none)
      | none =>
        match jget s.response "message" with
        | none => (acts, some (PyErr.keyError "message"))
        | some (JVal.jstr m) =>
          if m = "Validation Failed" then
            match jget s.response "errors" with
            | none => (acts, some (PyErr.keyError "errors"))
            | some (JVal.jobjs es) =>
              (acts ++ es.map (fun e => Act.errorMsg ("Error: " ++ errEntryMsg e)),
               none)
            | some (JVal.jstr _) => (acts, some PyErr.typeError)
          else (acts, none)
        | some (JVal.jobjs _) => (acts, none)

/-- Repository.clone: raise when something already exists at the local
path, before any side effect; otherwise create the parent directories
and clone the remote URL, passing the configured ref as the branch
argument when non-empty; when the tool rejects the ref a full clone
followed by a checkout of the ref is performed; a non-shallow clone
then sets up the git-flow model. -/
def Repo.clone (s : Repo) (shallow : Bool) : List Act × Option PyErr :=
  let branchArg : Option String := if s.ref ≠ "" then some s.ref else none
  if s.pathExists then
    ([], some (PyErr.alreadyExists s.path))
  else
    let tail := if shallow then [] else [Act.initGitflow]
    if s.cloneAtRefOk then
      ([Act.ensureParentDirs, Act.cloneCmd s.url branchArg shallow] ++ tail,
       none)
    else
      ([Act.ensureParentDirs, Act.cloneCmd s.url branchArg shallow,
        Act.cloneCmd s.url none false, Act.checkoutCmd s.ref] ++ tail,
       none)

/-- Claim-side classification of one short-status entry: its first two
characters begin with the untracked marker. -/
def entryUntracked (x : List Char) : Bool :=
  headIs (x.take 2) '?'

/-- Claim-side classification of one short-status entry: not untracked
and the first status column is blank. -/
def entryUnstaged (x : List Char) : Bool :=
  !entryUntracked x && headIs (x.take 2) ' '

/-- Claim-side classification of one short-status entry: any other
non-empty status code. -/
def entryStaged (x : List Char) : Bool :=
  !entryUntracked x && !headIs (x.take 2) ' ' && decide (x.take 2 ≠ [])

/-- Claim-side shape of a bare owner/repo shorthand: one non-empty
segment without slash, whitespace or at-sign, a slash, then one
non-empty segment without slash or whitespace. -/
def bareOwnerRepo (s : String) : Prop :=
  ∃ a b : List Char, s.data = a ++ '/' :: b ∧ a ≠ [] ∧ b ≠ [] ∧
    (∀ c ∈ a, c ≠ '/' ∧ pySpace c = false ∧ c ≠ '@') ∧
    (∀ c ∈ b, c ≠ '/' ∧ pySpace c = false)

/-- A sample state: attached to develop, tracking origin/develop, clean
working copy, nothing to push, already merged. -/
def cleanRepo : Repo where
  name := "zendev"
  path := "/home/user/src/zendev"
  ref := "develop"
  url := "git@github.com:zenoss/zendev"
  remoteUrl := "git@github.com:zenoss/zendev.git"
  activeBranch := some "develop"
  headSha := "deadbeef"
  branchTip := fun _ => "deadbeef"
  trackingOf := fun _ => some "origin/develop"
  isMergedInto := fun _ _ => true
  statusZ := ""
  revListOut := ""
  localBranches := ["develop", "master"]
  remoteBranches := ["origin/develop", "origin/master"]
  originName := "origin"
  pathExists := false
  rebaseOk := true
  applyStashOk := true
  cloneAtRefOk := true
  response := []

/-- A sample state: detached HEAD. -/
def detachedRepo : Repo :=
  { cleanRepo with activeBranch := none }

/-- A sample state: behind its tracking branch, with one unstaged
modification, and reapplying the stash after the rebase fails. -/
def dirtyBehindRepo : Repo :=
  { cleanRepo with
      isMergedInto := fun _ _ => false
      statusZ := " M zendev/repo.py\x00"
      applyStashOk := false }

/-- A sample state: an untracked file only, two commits to push, and an
API response carrying neither an html_url nor a message field. -/
def prRepo : Repo :=
  { cleanRepo with
      statusZ := "?? notes.txt\x00"
      revListOut := "abc123\ndef456"
      response := [("documentation_url", JVal.jstr "https://x")] }

/-- A sample state: something already exists at the clone target. -/
def occupiedRepo : Repo :=
  { cleanRepo with pathExists := true }

/-- C1: with an attached active branch, merge_from_remote returns with
no action at all (so no stash and no rebase) when the effective remote
ref, the tracking branch if set and otherwise the same-named local
branch, is already merged into the local branch; and when HEAD is
detached it returns immediately, doing nothing. -/
theorem c1_merge_from_remote_noop (s : Repo) :
    (s.activeBranch = none → s.merge_from_remote = ([], none)) ∧
    (∀ b, s.activeBranch = some b →
      s.isMergedInto ((s.trackingOf b).getD b) b = true →
      s.merge_from_remote = ([], none)) := by
  constructor
  · intro h
    simp [Repo.merge_from_remote, h]
  · intro b hb hm
    simp [Repo.merge_from_remote, hb, hm]

/-- C1 witness: the detached sample and the already-merged sample both
leave merge_from_remote with an empty trace and no error. -/
theorem c1_merge_from_remote_noop_witness :
    detachedRepo.merge_from_remote = ([], none) ∧
    cleanRepo.merge_from_remote = ([], none) :=
  ⟨(c1_merge_from_remote_noop detachedRepo).1 rfl,
   (c1_merge_from_remote_noop cleanRepo).2 "develop" rfl rfl⟩

/-- C8: in detached-HEAD state, branch and hash both return the
resolved head commit identifier instead of raising, and the operations
that need an active branch, merge_from_remote and push, return early
with no action and no error. -/
theorem c8_detached_head (s : Repo) (h : s.activeBranch = none) :
    s.branch = s.headSha ∧ s.hash = s.headSha ∧
    s.merge_from_remote = ([], none) ∧ s.push = [] := by
  refine ⟨?_, ?_, ?_, ?_⟩ <;>
    simp [Repo.branch, Repo.hash, Repo.merge_from_remote, Repo.push, h]

/-- C8 witness: the detached sample state. -/
theorem c8_detached_head_witness :
    detachedRepo.branch = detachedRepo.headSha ∧
    detachedRepo.hash = detachedRepo.headSha ∧
    detachedRepo.merge_from_remote = ([], none) ∧
    detachedRepo.push = [] :=
  c8_detached_head detachedRepo rfl

/-- C7: clone fails with the already-exists error and performs no
action when something is already at the local path; only when the path
is free does it create parent directories and run the clone of the
configured URL at the configured ref. -/
theorem c7_clone_guard (s : Repo) (sh : Bool) :
    (s.pathExists = true →
      s.clone sh = ([], some (PyErr.alreadyExists s.path))) ∧
    (s.pathExists = false →
      (s.clone sh).2 = none ∧
      (s.clone sh).1.head? = some Act.ensureParentDirs ∧
      Act.cloneCmd s.url (if s.ref ≠ "" then some s.ref else none) sh
        ∈ (s.clone sh).1) := by
  constructor
  · intro h
    simp [Repo.clone, h]
  · intro h
    by_cases hc : s.cloneAtRefOk <;> simp [Repo.clone, h, hc]

/-- C7 witness: the occupied sample fails with the already-exists error
and an empty trace; the free sample starts by creating the parent
directories. -/
theorem c7_clone_guard_witness :
    occupiedRepo.clone false = ([], some (PyErr.alreadyExists occupiedRepo.path)) ∧
    ((cleanRepo.clone false).2 = none ∧
     (cleanRepo.clone false).1.head? = some Act.ensureParentDirs ∧
     Act.cloneCmd cleanRepo.url
       (if cleanRepo.ref ≠ "" then some cleanRepo.ref else none) false
       ∈ (cleanRepo.clone false).1) :=
  ⟨(c7_clone_guard occupiedRepo false).1 rfl,
   (c7_clone_guard cleanRepo false).2 rfl⟩

/-- C2: on a run of merge_from_remote that reaches the rebase step, a
stash including untracked files is created exactly when at least one of
the three dirty-state flags is set; the operation ends with no
propagated error for every outcome of the stash reapply, the reapply
being attempted whenever a stash was created. -/
theorem c2_stash_iff_dirty (s : Repo) (b : String)
    (hb : s.activeBranch = some b)
    (hm : s.isMergedInto ((s.trackingOf b).getD b) b = false)
    (hr : s.rebaseOk = true) :
    (Act.stashPush true ∈ s.merge_from_remote.1 ↔
      (s.changes.1 = true ∨ s.changes.2.1 = true ∨ s.changes.2.2 = true)) ∧
    s.merge_from_remote.2 = none ∧
    ((s.changes.1 || s.changes.2.1 || s.changes.2.2) = true →
      Act.stashApply ∈ s.merge_from_remote.1) := by
  rcases hc : s.changes with ⟨st, rest⟩
  rcases rest with ⟨un, ut⟩
  cases st <;> cases un <;> cases ut <;>
    simp [Repo.merge_from_remote, hb, hm, hr, hc]

/-- C2 witness: the dirty, behind sample, whose stash reapply fails,
still stashes, rebases, attempts the reapply and ends with no error. -/
theorem c2_stash_iff_dirty_witness :
    (Act.stashPush true ∈ dirtyBehindRepo.merge_from_remote.1 ↔
      (dirtyBehindRepo.changes.1 = true ∨ dirtyBehindRepo.changes.2.1 = true ∨
       dirtyBehindRepo.changes.2.2 = true)) ∧
    dirtyBehindRepo.merge_from_remote.2 = none ∧
    ((dirtyBehindRepo.changes.1 || dirtyBehindRepo.changes.2.1 ||
      dirtyBehindRepo.changes.2.2) = true →
      Act.stashApply ∈ dirtyBehindRepo.merge_from_remote.1) :=
  c2_stash_iff_dirty dirtyBehindRepo "develop" rfl rfl rfl

/-- Splitting at every separator yields one more segment than there are
separator occurrences. -/
theorem splitOnPred_length (p : Char → Bool) (cs : List Char) :
    (splitOnPred p cs).length = cs.countP p + 1 := by
  induction cs with
  | nil => simp [splitOnPred]
  | cons c cs ih =>
    by_cases h : p c
    · simp [splitOnPred, h, ih, List.countP_cons]
    · cases hl : splitOnPred p cs with
      | nil => rw [hl] at ih; simp at ih
      | cons l ls =>
        rw [hl] at ih
        simp only [List.length_cons] at ih
        simp [splitOnPred, h, hl, List.countP_cons, ih]

/-- The count reported by push equals the number of lines of the
rev-list output. -/
theorem push_count_lines (s : Repo) :
    push_count s = (linesOf s.revListOut.data).length := by
  unfold push_count linesOf splitOnChar
  rw [splitOnPred_length, List.count_eq_countP]
  have : List.countP (fun x => x == '\n') s.revListOut.data =
      List.countP (fun c => decide (c = '\n')) s.revListOut.data := by
    apply List.countP_congr
    intro x _
    simp
  rw [this]

/-- C3: with an attached active branch, push issues a git push exactly
when the rev-list output is non-empty, and the commit count it reports
equals the number of lines of that output; with empty output, or when
HEAD is detached, push performs no action at all. -/
theorem c3_push_iff (s : Repo) :
    (s.activeBranch = none → s.push = []) ∧
    (s.revListOut = "" → s.push = []) ∧
    ((∃ r n, Act.gitPush r n ∈ s.push) ↔
      (s.activeBranch ≠ none ∧ s.revListOut ≠ "")) ∧
    push_count s = (linesOf s.revListOut.data).length := by
  refine ⟨?_, ?_, ?_, push_count_lines s⟩
  · intro h
    simp [Repo.push, h]
  · intro h
    cases hb : s.activeBranch <;> simp [Repo.push, hb, h]
  · cases hb : s.activeBranch with
    | none => simp [Repo.push, hb]
    | some b =>
      by_cases ho : s.revListOut = ""
      · simp [Repo.push, hb, ho]
      · constructor
        · intro _
          exact ⟨by simp [hb], ho⟩
        · intro _
          exact ⟨s.originName, b, by simp [Repo.push, hb, ho]⟩

/-- C3 witness: the detached sample pushes nothing, the clean attached
sample with empty rev-list output pushes nothing, and the sample with
two unpushed commits reports a count equal to its two output lines. -/
theorem c3_push_iff_witness :
    detachedRepo.push = [] ∧ cleanRepo.push = [] ∧
    push_count prRepo = (linesOf prRepo.revListOut.data).length :=
  ⟨(c3_push_iff detachedRepo).1 rfl,
   (c3_push_iff cleanRepo).2.1 rfl,
   (c3_push_iff prRepo).2.2.2⟩

/-- The flag accumulation over the status entries computes, for each of
the three flags, whether some entry is classified accordingly. -/
theorem statusStep_fold (l : List (List Char)) (a b c : Bool) :
    l.foldl statusStep (a, b, c) =
      (a || l.any entryStaged, b || l.any entryUnstaged,
       c || l.any entryUntracked) := by
  induction l generalizing a b c with
  | nil => simp
  | cons x t ih =>
    by_cases h1 : headIs (x.take 2) '?'
    · simp [statusStep, h1, ih, entryStaged, entryUnstaged, entryUntracked]
    · by_cases h2 : headIs (x.take 2) ' '
      · simp [statusStep, h1, h2, ih, entryStaged, entryUnstaged, entryUntracked]
      · by_cases h3 : x.take 2 = []
        · simp [statusStep, h1, h2, h3, ih, entryStaged, entryUnstaged,
            entryUntracked, headIs]
        · simp [statusStep, h1, h2, h3, ih, entryStaged, entryUnstaged,
            entryUntracked]

/-- C4: changes computes the three dirty flags entry-wise over the
NUL-separated short-status output: an entry beginning with the
untracked marker sets only the untracked flag, a blank first status
column sets only the unstaged flag, any other non-empty status code
sets only the staged flag; in particular an untracked-only tree, a lone
staged addition, a lone unstaged modification and a clean tree give the
four stated triples. -/
theorem c4_changes_classification (statusZ : String) :
    changes statusZ =
      ((splitOnChar '\x00' statusZ.data).any entryStaged,
       (splitOnChar '\x00' statusZ.data).any entryUnstaged,
       (splitOnChar '\x00' statusZ.data).any entryUntracked) ∧
    changes "?? notes.txt\x00" = (false, false, true) ∧
    changes "A  new.py\x00" = (true, false, false) ∧
    changes " M repo.py\x00" = (false, true, false) ∧
    changes "" = (false, false, false) := by
  refine ⟨?_, by decide, by decide, by decide, by decide⟩
  unfold changes
  rw [statusStep_fold]
  simp

/-- C5: create_feature performs exactly the reconciliation action
determined by the presence of the local and the remote feature branch:
nothing when both exist, a fetch when only the remote exists, a publish
when only the local exists, a start with no explicit base followed by a
publish when neither exists; under the spec-modelled tool effects the
resulting state has the feature branch on both sides, and a second call
in that state performs no action. -/
theorem c5_create_feature_reconciles (s : Repo) (name : String) :
    (s.create_feature name =
      (if s.localBranches.contains ("feature/" ++ name) then
        (if s.remoteBranches.contains ("origin/feature/" ++ name) then []
         else [Act.publishFeatureCmd name])
       else
        (if s.remoteBranches.contains ("origin/feature/" ++ name) then
          [Act.fetchAll]
         else [Act.startFeatureCmd name none, Act.publishFeatureCmd name]))) ∧
    ((s.create_feature name).foldl (applyFeatureAct name) s).localBranches.contains
        ("feature/" ++ name) = true ∧
    ((s.create_feature name).foldl (applyFeatureAct name) s).remoteBranches.contains
        ("origin/feature/" ++ name) = true ∧
    Repo.create_feature
        ((s.create_feature name).foldl (applyFeatureAct name) s) name = [] := by
  by_cases hl : s.localBranches.contains ("feature/" ++ name) <;>
  by_cases hr : s.remoteBranches.contains ("origin/feature/" ++ name) <;>
    simp_all [Repo.create_feature, applyFeatureAct]

/-- C6: create_pull_request reports an error and returns with no other
action, in particular no git push and no network call, exactly when the
working copy has unstaged changes; staged-only or untracked-only
changes do not block the operation, which proceeds to the POST. -/
theorem c6_pr_unstaged_gate (s : Repo) (fn body base : String) :
    (s.changes.2.1 = true →
      s.create_pull_request fn body base =
        ([Act.errorMsg ("uncommited changes in: " ++ s.name)], none)) ∧
    (s.changes.2.1 = false → ∀ ow rp, ownerRepo s.remoteUrl = Except.ok (ow, rp) →
      Act.httpPost ("/repos/" ++ ow ++ "/" ++ rp ++ "/pulls")
          ("Please review branch " ++ ("feature/" ++ fn)) body
          ("feature/" ++ fn) base
        ∈ (s.create_pull_request fn body base).1) := by
  constructor
  · intro h
    simp [Repo.create_pull_request, h]
  · intro h ow rp ho
    rcases h1 : jget s.response "html_url" with _ | v1
    · rcases h2 : jget s.response "message" with _ | v2
      · simp [Repo.create_pull_request, h, ho, h1, h2]
      · rcases v2 with m | es2
        · by_cases hm : m = "Validation Failed"
          · rcases h3 : jget s.response "errors" with _ | v3
            · simp [Repo.create_pull_request, h, ho, h1, h2, h3, hm]
            · rcases v3 with m3 | es3 <;>
                simp [Repo.create_pull_request, h, ho, h1, h2, h3, hm]
          · simp [Repo.create_pull_request, h, ho, h1, h2, hm]
        · simp [Repo.create_pull_request, h, ho, h1, h2]
    · simp [Repo.create_pull_request, h, ho, h1]

/-- C6 witness: the sample with an unstaged modification aborts with
only the error message; the sample with an untracked-only working copy
proceeds to the POST of the pull request. -/
theorem c6_pr_unstaged_gate_witness :
    dirtyBehindRepo.create_pull_request "x" "" "develop" =
      ([Act.errorMsg ("uncommited changes in: " ++ dirtyBehindRepo.name)], none) ∧
    Act.httpPost ("/repos/" ++ "zenoss" ++ "/" ++ "zendev" ++ "/pulls")
        ("Please review branch " ++ ("feature/" ++ "x")) "" ("feature/" ++ "x")
        "develop"
      ∈ (prRepo.create_pull_request "x" "" "develop").1 :=
  ⟨(c6_pr_unstaged_gate dirtyBehindRepo "x" "" "develop").1 rfl,
   (c6_pr_unstaged_gate prRepo "x" "" "develop").2 rfl "zenoss" "zendev" rfl⟩

/-- C10: on a response carrying neither an html_url nor a message
field, create_pull_request ends with an uncaught key-lookup error on
the message key, raised only after the push step and the POST have
already happened. -/
theorem c10_pr_keyerror (s : Repo) (fn body base : String)
    (hu : s.changes.2.1 = false)
    (ow rp : String) (ho : ownerRepo s.remoteUrl = Except.ok (ow, rp))
    (h1 : jget s.response "html_url" = none)
    (h2 : jget s.response "message" = none) :
    s.create_pull_request fn body base =
      (s.push ++
        [Act.sleep 1, Act.message "Posting pull request",
         Act.httpPost ("/repos/" ++ ow ++ "/" ++ rp ++ "/pulls")
           ("Please review branch " ++ ("feature/" ++ fn)) body
           ("feature/" ++ fn) base],
       some (PyErr.keyError "message")) := by
  simp [Repo.create_pull_request, hu, ho, h1, h2]

/-- C10 witness: the sample whose response has only a documentation_url
field pushes, posts, and then ends with the KeyError on message. -/
theorem c10_pr_keyerror_witness :
    prRepo.create_pull_request "x" "" "develop" =
      (prRepo.push ++
        [Act.sleep 1, Act.message "Posting pull request",
         Act.httpPost ("/repos/" ++ "zenoss" ++ "/" ++ "zendev" ++ "/pulls")
           ("Please review branch " ++ ("feature/" ++ "x")) ""
           ("feature/" ++ "x") "develop"],
       some (PyErr.keyError "message")) :=
  c10_pr_keyerror prRepo "x" "" "develop" rfl "zenoss" "zendev" rfl rfl rfl

/-- Splitting never yields an empty list of segments. -/
theorem splitOnPred_ne_nil (p : Char → Bool) (cs : List Char) :
    splitOnPred p cs ≠ [] := by
  induction cs with
  | nil => simp [splitOnPred]
  | cons c cs ih =>
    by_cases h : p c
    · simp [splitOnPred, h]
    · cases hl : splitOnPred p cs with
      | nil => exact absurd hl ih
      | cons l ls => simp [splitOnPred, h, hl]

/-- Splitting a list headed by the separator opens with an empty
segment. -/
theorem splitOnChar_cons_sep (sep : Char) (cs : List Char) :
    splitOnChar sep (sep :: cs) = [] :: splitOnChar sep cs := by
  simp [splitOnChar, splitOnPred]

/-- Splitting a list headed by a non-separator prepends that character
to the first segment of the tail split. -/
theorem splitOnChar_cons_ne (sep c : Char) (cs l : List Char)
    (ls : List (List Char)) (hc : c ≠ sep)
    (hl : splitOnChar sep cs = l :: ls) :
    splitOnChar sep (c :: cs) = (c :: l) :: ls := by
  unfold splitOnChar at hl ⊢
  simp [splitOnPred, hc, hl]

/-- A list free of the separator splits into itself alone. -/
theorem splitOnChar_no_sep (sep : Char) (b : List Char)
    (hb : ∀ c ∈ b, c ≠ sep) : splitOnChar sep b = [b] := by
  induction b with
  | nil => rfl
  | cons c cs ih =>
    exact splitOnChar_cons_ne sep c cs cs [] (hb c (by simp))
      (ih (fun x hx => hb x (by simp [hx])))

/-- Splitting a list made of a separator-free part, the separator, and
a remainder peels off the first part as one segment. -/
theorem splitOnChar_append (sep : Char) (a rest : List Char)
    (ha : ∀ c ∈ a, c ≠ sep) :
    splitOnChar sep (a ++ sep :: rest) = a :: splitOnChar sep rest := by
  induction a with
  | nil => simpa using splitOnChar_cons_sep sep rest
  | cons c a ih =>
    have ih' := ih (fun x hx => ha x (by simp [hx]))
    have step := splitOnChar_cons_ne sep c (a ++ sep :: rest) a
      (splitOnChar sep rest) (ha c (by simp)) ih'
    simpa using step

/-- A split with exactly one segment means the input is that segment
and carries no separator. -/
theorem splitOnChar_eq_singleton (sep : Char) (cs b : List Char)
    (h : splitOnChar sep cs = [b]) : cs = b ∧ ∀ c ∈ b, c ≠ sep := by
  induction cs generalizing b with
  | nil =>
    have hnil : ([[]] : List (List Char)) = [b] := h
    obtain rfl : ([] : List Char) = b := by simpa using hnil
    simp
  | cons c cs ih =>
    by_cases hc : c = sep
    · subst hc
      rw [splitOnChar_cons_sep] at h
      exact absurd (List.cons_eq_cons.mp h).2 (splitOnPred_ne_nil _ _)
    · cases hl : splitOnChar sep cs with
      | nil => exact absurd hl (splitOnPred_ne_nil _ _)
      | cons l ls =>
        rw [splitOnChar_cons_ne sep c cs l ls hc hl] at h
        obtain ⟨hb, hls⟩ := List.cons_eq_cons.mp h
        subst hls
        obtain ⟨hcs, hno⟩ := ih l hl
        subst hb
        refine ⟨by rw [hcs], ?_⟩
        intro x hx
        rcases List.mem_cons.mp hx with h1 | h1
        · subst h1; exact hc
        · exact hno x h1

/-- A split with exactly two segments means the input is the two
segments joined by one separator, neither segment containing it. -/
theorem splitOnChar_eq_pair (sep : Char) (cs a b : List Char)
    (h : splitOnChar sep cs = [a, b]) :
    cs = a ++ sep :: b ∧ (∀ c ∈ a, c ≠ sep) ∧ (∀ c ∈ b, c ≠ sep) := by
  induction cs generalizing a with
  | nil =>
    have hnil : ([[]] : List (List Char)) = [a, b] := h
    simp at hnil
  | cons c cs ih =>
    by_cases hc : c = sep
    · subst hc
      rw [splitOnChar_cons_sep] at h
      obtain ⟨ha, hb⟩ := List.cons_eq_cons.mp h
      obtain ⟨hcs, hnb⟩ := splitOnChar_eq_singleton c cs b hb
      subst hcs
      exact ⟨by rw [← ha]; rfl, by rw [← ha]; simp, hnb⟩
    · cases hl : splitOnChar sep cs with
      | nil => exact absurd hl (splitOnPred_ne_nil _ _)
      | cons l ls =>
        rw [splitOnChar_cons_ne sep c cs l ls hc hl] at h
        obtain ⟨ha, hls⟩ := List.cons_eq_cons.mp h
        obtain ⟨hcs, hnl, hnb⟩ := ih l (by rw [hl, hls])
        subst ha
        refine ⟨by rw [hcs]; simp, ?_, hnb⟩
        intro x hx
        rcases List.mem_cons.mp hx with h1 | h1
        · subst h1; exact hc
        · exact hnl x h1

/-- The core shape test of the regex coincides with the claim-side
owner/repo decomposition. -/
theorem githubCore_iff (s : String) :
    githubCore s.data = true ↔ bareOwnerRepo s := by
  constructor
  · intro h
    unfold githubCore at h
    split at h
    case h_1 a b heq =>
      obtain ⟨hcs, hna, hnb⟩ := splitOnChar_eq_pair '/' s.data a b heq
      simp only [Bool.and_eq_true, decide_eq_true_eq, List.all_eq_true] at h
      obtain ⟨⟨⟨ha, hb⟩, hca⟩, hcb⟩ := h
      refine ⟨a, b, hcs, ha, hb, ?_, ?_⟩
      · intro c hcmem
        have h2 := hca c hcmem
        simp only [Bool.and_eq_true, Bool.not_eq_true', decide_eq_true_eq] at h2
        exact ⟨hna c hcmem, h2.1, h2.2⟩
      · intro c hcmem
        have h2 := hcb c hcmem
        simp only [Bool.not_eq_true'] at h2
        exact ⟨hnb c hcmem, h2⟩
    case h_2 => simp at h
  · rintro ⟨a, b, hcs, ha, hb, hca, hcb⟩
    have hna : ∀ c ∈ a, c ≠ '/' := fun c hc => (hca c hc).1
    have hnb : ∀ c ∈ b, c ≠ '/' := fun c hc => (hcb c hc).1
    unfold githubCore
    rw [hcs, splitOnChar_append '/' a b hna, splitOnChar_no_sep '/' b hnb]
    simp only [Bool.and_eq_true, decide_eq_true_eq, List.all_eq_true]
    refine ⟨⟨⟨ha, hb⟩, ?_⟩, ?_⟩
    · intro c hc
      simp [(hca c hc).2.1, (hca c hc).2.2]
    · intro c hc
      simp [(hcb c hc).2]

/-- C9 counterexample: the input made of a valid shorthand followed by
one newline is not of the claimed bare owner/repo shape, yet the
normalization rewrites it instead of returning it unchanged, because
the dollar anchor of the Python regex also matches just before a
trailing newline. -/
theorem c9_counterexample :
    ¬ bareOwnerRepo "a/b\n" ∧ _proper_url "a/b\n" ≠ "a/b\n" := by
  constructor
  · intro h
    have h2 := (githubCore_iff "a/b\n").2 h
    exact absurd h2 (by decide)
  · decide

/-- C9 amended: the normalization rewrites exactly the strings that are
a bare owner/repo shorthand or such a shorthand followed by one
trailing newline, prefixing git at github.com; every other string is
returned unchanged. -/
theorem c9_amended (s : String) :
    (¬ (bareOwnerRepo s ∨ (s.data.getLast? = some '\n' ∧
        bareOwnerRepo (String.mk s.data.dropLast))) →
      _proper_url s = s) ∧
    ((bareOwnerRepo s ∨ (s.data.getLast? = some '\n' ∧
        bareOwnerRepo (String.mk s.data.dropLast))) →
      _proper_url s = "git@github.com:" ++ s) := by
  have hiff : is_github s = true ↔
      (bareOwnerRepo s ∨ (s.data.getLast? = some '\n' ∧
        bareOwnerRepo (String.mk s.data.dropLast))) := by
    unfold is_github
    simp only [Bool.or_eq_true, Bool.and_eq_true, beq_iff_eq]
    constructor
    · rintro (h | ⟨h1, h2⟩)
      · exact Or.inl ((githubCore_iff s).1 h)
      · exact Or.inr ⟨h1, (githubCore_iff (String.mk s.data.dropLast)).1 h2⟩
    · rintro (h | ⟨h1, h2⟩)
      · exact Or.inl ((githubCore_iff s).2 h)
      · exact Or.inr ⟨h1, (githubCore_iff (String.mk s.data.dropLast)).2 h2⟩
  constructor
  · intro h
    have hg : is_github s = false := by
      cases hg : is_github s
      · rfl
      · exact absurd (hiff.1 hg) h
    simp [_proper_url, hg]
  · intro h
    simp [_proper_url, hiff.2 h]

/-- C9 amended witness: a plain shorthand is rewritten to the SSH form,
and a full SSH URL is passed through unchanged. -/
theorem c9_amended_witness :
    _proper_url "zenoss/zendev" = "git@github.com:zenoss/zendev" ∧
    _proper_url "git@github.com:zenoss/zendev" = "git@github.com:zenoss/zendev" := by
  constructor
  · exact (c9_amended "zenoss/zendev").2
      (Or.inl ⟨"zenoss".data, "zendev".data, by decide, by decide, by decide,
        by decide, by decide⟩)
  · refine (c9_amended "git@github.com:zenoss/zendev").1 ?_
    rintro (h | ⟨h1, h2⟩)
    · exact absurd ((githubCore_iff "git@github.com:zenoss/zendev").2 h)
        (by decide)
    · exact absurd h2
        (fun hh => absurd ((githubCore_iff _).2 hh) (by decide))

end Zendev
